import Mathlib

/-!
# Verification of the `az-scout-plugin-regions-cheapest` core pipeline

Shallow embedding of the plugin's core business logic
(`src/az_scout_plugin_regions_cheapest/service.py`,
`providers.py`, `models.py`) in Lean 4, together with theorems checking the
natural-language specification against it.

Modelling conventions:
* Python `dict`s become association lists (`List (key × value)`) with
  insert-or-replace semantics (`insertA`) mirroring dict assignment, and
  first-match lookup (`lookupA`) mirroring `dict.get`.
* Python `float` prices become `ℚ`; `round(x, n)` becomes `roundTo n x`.
  (Python's float `round` breaks ties to even; no claim below depends on tie
  behaviour because the same rounding function appears on both sides.)
* Fallible collaborator calls (a Python function that may raise) become
  `Option`-valued fields of an `Env` record describing one request's
  environment: `none` models "the call raised", matching the `try/except`
  blocks in the source.
* The thread-pool fan-outs in `_collect_all_skus` and
  `CoreApiPricingProvider.get_prices_bulk` populate dicts in `as_completed`
  order, and `_try_db_provider` iterates a Python `set` of missing regions
  in unspecified order.  In all three places the resulting mapping's
  *content* (lookup function) is independent of that order because entries
  for distinct regions have distinct keys; the embedding fixes the source
  list order, and no theorem below depends on insertion order.
* `models.py` in the repository is a stale revision (fields `sample_size`
  and no `data_source`/`coverage_pct`) while `service.py`, `routes.py`,
  `mcp_tools.py` and the test-suite all use `sku_count`, `data_source` and
  `coverage_pct`.  The embedding follows the fields the service layer
  actually constructs and the tests assert; the discrepancy itself is the
  subject of claim C1 (see `regionPriceSummaryResultInitFields` below).
-/

namespace RegionsCheapest

/-- Association-list lookup, first match wins — models `dict.get(k)`
(a Python dict holds at most one entry per key, so first match is the
entry). -/
def lookupA {α β : Type} [DecidableEq α] : List (α × β) → α → Option β
  | [], _ => none
  | (k', v) :: rest, k => if k' = k then some v else lookupA rest k

/-- Association-list insert-or-replace — models `d[k] = v` on a Python dict:
an existing key keeps its position and gets the new value, a new key is
appended. -/
def insertA {α β : Type} [DecidableEq α] : List (α × β) → α → β → List (α × β)
  | [], k, v => [(k, v)]
  | (k', v') :: rest, k, v =>
      if k' = k then (k, v) :: rest else (k', v') :: insertA rest k v

/-- One discovered region, as returned by the discovery collaborator
`list_regions`: `{"name": ..., "displayName": ...}`. -/
structure RegionInfo where
  name : String
  displayName : String
deriving DecidableEq

/-- Per-region SKU price map `{sku_name: paygo_price | None}`, the return
shape of `_fetch_region_prices` (service.py lines 67-83). -/
abbrev SkuPrices := List (String × Option ℚ)

/-- `region_prices` map `{region: {sku: price | None}}` used throughout
`service.py`. -/
abbrev RegionPrices := List (String × SkuPrices)

/-- Response of the bulk-cache status endpoint
`GET /plugins/bdd-sku/status` (providers.py lines 70-78). -/
structure DbStatus where
  db_connected : Bool
  retail_prices_count : ℤ
deriving DecidableEq

/-- One row of the bulk-cache query response
`POST /plugins/bdd-sku/retail/query` (providers.py lines 100-107);
`price_hourly` may be `null`. -/
structure DbRow where
  region : String
  sku : String
  price_hourly : Option ℚ
deriving DecidableEq

/-- Static location entry from `region_locations.json`
(`loc_map[region] = {lat, lon, countryCode}`), with the `.get` defaults of
`_build_rows` lines 136-138 already absorbed. -/
structure LocEntry where
  countryCode : String
  lat : Option ℚ
  lon : Option ℚ
deriving DecidableEq

/-- Environment of one request: the external collaborators' responses.
`none` in an `Option`-valued field models "the call raised" (every such
call in the source sits in a `try/except` or is documented to propagate). -/
structure Env where
  /-- `list_regions(tenant_id)`; `none` = the discovery collaborator raised. -/
  regions : Option (List RegionInfo)
  /-- `get_retail_prices(region, currency)` reduced to `{sku: paygo | None}`
  as `_fetch_region_prices` consumes it; `none` = the call raised. -/
  retail : String → String → Option SkuPrices
  /-- Bulk-cache status response; `none` = transport failure on the GET. -/
  dbStatus : Option DbStatus
  /-- Bulk-cache query response for `(regions, skus, currency)`;
  `none` = transport failure on the POST. -/
  dbQuery : List String → List String → String → Option (List DbRow)
  /-- `datetime.now(UTC).isoformat()` at this request. -/
  nowIso : String
  /-- Lazily loaded `region_geography.json` (missing file = empty map). -/
  geoMap : List (String × String)
  /-- Lazily loaded `region_locations.json` (missing file = empty map). -/
  locMap : List (String × LocEntry)

/-- `DbPricingProvider.is_available` (providers.py lines 70-78): true iff the
status call succeeded, reported `db_connected` truthy and a positive
`retail_prices_count`; any exception yields `False`. -/
def dbIsAvailable (env : Env) : Bool :=
  match env.dbStatus with
  | none => false
  | some s => s.db_connected && s.retail_prices_count > 0

/-- `DbPricingProvider.get_prices_bulk` (providers.py lines 80-111): parse the
query response rows into `{(region, sku): price}`, keeping only rows with a
truthy (non-empty) region and sku and a non-null price; any exception yields
the empty dict. -/
def dbGetPricesBulk (env : Env) (regions skus : List String) (currency : String) :
    List ((String × String) × ℚ) :=
  match env.dbQuery regions skus currency with
  | none => []
  | some rows =>
      rows.foldl (fun acc row =>
        match row.price_hourly with
        | some p =>
            if row.region ≠ "" ∧ row.sku ≠ "" then insertA acc (row.region, row.sku) p
            else acc
        | none => acc) []

/-- The `_fetch_region` closure of `CoreApiPricingProvider.get_prices_bulk`
(providers.py lines 137-146): one region's `partial` dict — the full catalog
filtered to the requested SKU set (case-insensitive) when one was supplied,
keeping non-null paygo prices.  A region whose fetch raised contributes the
empty dict (the exception is caught at the pool, lines 151-156). -/
def coreFetchRegion (env : Env) (skus : List String) (currency region : String) :
    List ((String × String) × ℚ) :=
  match env.retail region currency with
  | none => []
  | some prices =>
      prices.foldl (fun part sp =>
        if skus ≠ [] ∧ ¬ (skus.map String.toLower).contains sp.1.toLower then part
        else
          match sp.2 with
          | some p => insertA part (region, sp.1) p
          | none => part) []

/-- `CoreApiPricingProvider.get_prices_bulk` (providers.py lines 120-158):
`result.update(partial)` over the per-region fetches.  The pool completes
regions in nondeterministic order, but the keys contributed by distinct
regions are disjoint, so the resulting mapping's content is
order-independent; the embedding uses the request order. -/
def corePricesBulk (env : Env) (regions skus : List String) (currency : String) :
    List ((String × String) × ℚ) :=
  regions.foldl (fun acc region =>
    (coreFetchRegion env skus currency region).foldl
      (fun acc2 pr => insertA acc2 pr.1 pr.2) acc) []

/-- `_collect_all_skus` (service.py lines 86-104): fetch every region live;
a failed region is simply absent from the result. -/
def collectAllSkus (env : Env) (region_names : List String) (currency : String) :
    RegionPrices :=
  region_names.foldl (fun acc rn =>
    match env.retail rn currency with
    | none => acc
    | some prices => insertA acc rn prices) []

/-- Fold a flat `{(region, sku): price}` mapping into the per-region dict, as
`region_prices.setdefault(region, {})[sku] = price` does (service.py
lines 173-176 and 201-202), starting from `base`. -/
def mergePairs (base : RegionPrices) (pairs : List ((String × String) × ℚ)) :
    RegionPrices :=
  pairs.foldl (fun acc pr =>
    insertA acc pr.1.1 (insertA ((lookupA acc pr.1.1).getD []) pr.1.2 (some pr.2))) base

/-- `expected = len(region_names) * len(all_skus) if all_skus else 0`
(service.py line 178). -/
def expectedPairs (region_names all_skus : List String) : ℕ :=
  if all_skus ≠ [] then region_names.length * all_skus.length else 0

/-- Composite lookup `region_prices.get(rn, {}).get(sku)` — whether and how
a (region, SKU) pair is present in a per-region price map. -/
def lookupInner (m : RegionPrices) (rn sku : String) : Option (Option ℚ) :=
  lookupA ((lookupA m rn).getD []) sku

/-- The regions missing at least one requested SKU in the cache-derived map
(service.py lines 185-191).  The source collects them into a Python `set`
and later iterates it in unspecified order; the embedding keeps
`region_names` order, on which no downstream content depends. -/
def missingRegions (region_names all_skus : List String)
    (region_prices : RegionPrices) : List String :=
  region_names.filter (fun rn =>
    all_skus.any (fun sku => (lookupInner region_prices rn sku).isNone))

/-- `filled = sum(len(v) for v in region_prices.values())`
(service.py line 204). -/
def filledCount (rp : RegionPrices) : ℕ :=
  (rp.map (fun rv => rv.2.length)).sum

/-- `_DB_COVERAGE_THRESHOLD = 0.7` (service.py line 37). -/
def dbCoverageThreshold : ℚ := 7 / 10

/-- `_try_db_provider` (service.py lines 145-206).  Returns
`(region_prices, data_source label, coverage ratio 0-1)`.  The `tenant_id`
parameter is forwarded in the source but never used by either provider's
request body. -/
def tryDbProvider (env : Env) (region_names all_skus : List String)
    (currency : String) (_tenant_id : Option String) :
    RegionPrices × String × ℚ :=
  if ¬ dbIsAvailable env then ([], "live", 0)
  else
    let db_prices := dbGetPricesBulk env region_names all_skus currency
    if db_prices = [] then ([], "live", 0)
    else
      let region_prices := mergePairs [] db_prices
      let expected := expectedPairs region_names all_skus
      let coverage : ℚ := if expected ≠ 0 then (db_prices.length : ℚ) / expected else 0
      if coverage ≥ dbCoverageThreshold then (region_prices, "db", coverage)
      else
        let missing := missingRegions region_names all_skus region_prices
        let region_prices2 :=
          if missing ≠ [] then
            mergePairs region_prices (corePricesBulk env missing all_skus currency)
          else region_prices
        let final_coverage : ℚ :=
          if expected ≠ 0 then (filledCount region_prices2 : ℚ) / expected else 0
        (region_prices2, "hybrid", final_coverage)

/-- `round(x, ndigits)` on exact rationals. -/
def roundTo (ndigits : ℕ) (q : ℚ) : ℚ :=
  ((round (q * 10 ^ ndigits) : ℤ) : ℚ) / 10 ^ ndigits

/-- `RegionPriceRow` as the service layer constructs it (service.py
lines 126-140) and the tests assert it; the checked-in `models.py` is a
stale revision naming the sixth field `sample_size` — that discrepancy is
claim C1's subject. -/
structure RegionPriceRow where
  geography : String
  region_name : String
  region_id : String
  avg_price : Option ℚ
  availability_pct : ℚ
  sku_count : ℕ
  priced_count : ℕ
  timestamp_utc : String
  country_code : String
  lat : Option ℚ
  lon : Option ℚ
deriving DecidableEq

/-- Serialised form of `RegionPriceRow.to_dict` (models.py lines 22-36):
`availabilityPct` is rounded to 2 digits, everything else is carried over. -/
structure RegionRowDict where
  geography : String
  regionName : String
  regionId : String
  avgPrice : Option ℚ
  availabilityPct : ℚ
  skuCount : ℕ
  pricedCount : ℕ
  timestampUtc : String
  countryCode : String
  lat : Option ℚ
  lon : Option ℚ
deriving DecidableEq

/-- `RegionPriceRow.to_dict` (models.py lines 22-36). -/
def RegionPriceRow.toDict (r : RegionPriceRow) : RegionRowDict :=
  { geography := r.geography
    regionName := r.region_name
    regionId := r.region_id
    avgPrice := r.avg_price
    availabilityPct := roundTo 2 r.availability_pct
    skuCount := r.sku_count
    pricedCount := r.priced_count
    timestampUtc := r.timestamp_utc
    countryCode := r.country_code
    lat := r.lat
    lon := r.lon }

/-- Sort-key comparison of `rows.sort(key=lambda r: (r.avg_price is None,
r.avg_price or 0))` (service.py line 141): lexicographic on the pair
(is-None flag with False < True, then the price, with `None` and `0.0` both
contributing 0).  `rowLe r s` says r's key ≤ s's key.  Python's sort is
stable; `List.insertionSort` with a total preorder is also stable (an
earlier element is ordered-inserted in front of a later equal one), and a
stable sort's output is uniquely determined by the key order, so the
embedding reproduces the source's output exactly. -/
def rowLe (r s : RegionPriceRow) : Prop :=
  (r.avg_price.isNone = false ∧ s.avg_price.isNone = true) ∨
    (r.avg_price.isNone = s.avg_price.isNone ∧
      r.avg_price.getD 0 ≤ s.avg_price.getD 0)

instance : DecidableRel rowLe := fun r s => by
  unfold rowLe; infer_instance

instance : IsTotal RegionPriceRow rowLe where
  total r s := by
    unfold rowLe
    rcases hr : r.avg_price.isNone <;> rcases hs : s.avg_price.isNone <;>
      rcases le_total (r.avg_price.getD 0) (s.avg_price.getD 0) with h | h <;> tauto

instance : IsTrans RegionPriceRow rowLe where
  trans r s t h12 h23 := by
    unfold rowLe at *
    rcases h12 with ⟨h1, h2⟩ | ⟨h1, h2⟩
    · rcases h23 with ⟨h3, h4⟩ | ⟨h3, h4⟩
      · exact absurd h3 (by simp [h2])
      · exact Or.inl ⟨h1, h3 ▸ h2⟩
    · rcases h23 with ⟨h3, h4⟩ | ⟨h3, h4⟩
      · exact Or.inl ⟨h1.trans h3, h4⟩
      · exact Or.inr ⟨h1.trans h3, le_trans h2 h4⟩

/-- The loop body of `_build_rows` (service.py lines 117-140): the row built
for one requested region (a region absent from `region_prices` gets an empty
price dict), average and availability computed from the non-null prices. -/
def buildRowOne (display_names : List (String × String)) (region_prices : RegionPrices)
    (geo_map : List (String × String)) (loc_map : List (String × LocEntry))
    (timestamp : String) (region_name : String) : RegionPriceRow :=
  let prices := (lookupA region_prices region_name).getD []
  let valid_prices := prices.filterMap (fun sp => sp.2)
  let priced_count := valid_prices.length
  let sku_count := prices.length
  let avg_price : Option ℚ :=
    if priced_count ≠ 0 then some (valid_prices.sum / priced_count) else none
  let availability_pct : ℚ :=
    if sku_count ≠ 0 then (priced_count : ℚ) / sku_count * 100 else 0
  let loc := (lookupA loc_map region_name).getD ⟨"", none, none⟩
  { geography := (lookupA geo_map region_name).getD "Unknown"
    region_name := (lookupA display_names region_name).getD region_name
    region_id := region_name
    avg_price := avg_price.map (roundTo 6)
    availability_pct := availability_pct
    sku_count := sku_count
    priced_count := priced_count
    timestamp_utc := timestamp
    country_code := loc.countryCode
    lat := loc.lat
    lon := loc.lon }

/-- `_build_rows` (service.py lines 107-142): one row per requested region,
then the stable sort of line 141 placing null averages last. -/
def buildRows (region_names : List String) (display_names : List (String × String))
    (region_prices : RegionPrices) (geo_map : List (String × String))
    (loc_map : List (String × LocEntry)) (timestamp : String) :
    List RegionPriceRow :=
  let rows := region_names.map
    (buildRowOne display_names region_prices geo_map loc_map timestamp)
  List.insertionSort rowLe rows

/-- `RegionPriceSummaryResult` as `compute_region_stats` constructs it
(service.py lines 297-303) and routes/tools/tests consume it.  The stale
`models.py` revision lacks `data_source` and `coverage_pct` (claim C1); on
the discovery-failure path the source passes neither, so their values there
are defaults the stale dataclass does not define — no claim observes them
on that path and the embedding uses `"live"`/`0`. -/
structure SummaryResult where
  rows : List RegionPriceRow
  timestamp_utc : String
  currency : String
  data_source : String
  coverage_pct : ℚ
deriving DecidableEq

/-- The module-level `_result_cache`: key → (monotonic store time, result)
(service.py line 40). -/
abbrev Cache := List (String × (ℚ × SummaryResult))

/-- `cache_key = f"{tenant_id or ''}:{currency}"` (service.py line 235);
`tenant_id or ''` maps both `None` and `""` to `""`. -/
def cacheKey (tenant_id : Option String) (currency : String) : String :=
  (tenant_id.getD "") ++ ":" ++ currency

/-- `_CACHE_TTL = 600` (service.py line 35). -/
def cacheTTL : ℚ := 600

/-- The cache-miss computation of `compute_region_stats` after successful
discovery (service.py lines 255-303).  `regions` is the discovery result. -/
def computeWithRegions (env : Env) (tenant_id : Option String) (currency : String)
    (regions : List RegionInfo) : SummaryResult :=
  let timestamp := env.nowIso
  let region_names := regions.map (fun r => r.name)
  let display_names := regions.foldl (fun acc r => insertA acc r.name r.displayName) []
  -- sample SKU universe: first region's catalog, live (lines 264-269);
  -- a raised fetch is caught and leaves `sample_skus = []`
  let sample_prices : Option SkuPrices :=
    match region_names with
    | [] => some []
    | rn :: _ => env.retail rn currency
  let sample_skus : List String := (sample_prices.getD []).map (fun sp => sp.1)
  let step1 : RegionPrices × String × ℚ :=
    if sample_skus ≠ [] then tryDbProvider env region_names sample_skus currency tenant_id
    else ([], "live", 0)
  let data_source := step1.2.1
  -- merge the already-fetched sample region into a DB/hybrid map that
  -- lacks it (lines 285-288)
  let region_prices1 : RegionPrices :=
    if (data_source = "db" ∨ data_source = "hybrid") ∧ region_names ≠ [] ∧
        (lookupA step1.1 (region_names.headD "")).isNone then
      insertA step1.1 (region_names.headD "") (sample_prices.getD [])
    else step1.1
  -- full live fallback (lines 291-293); note the pre-existing `coverage_pct`
  -- from `_try_db_provider` is a 0-1 ratio while this branch stores 100.0
  let step2 : RegionPrices × ℚ :=
    if data_source = "live" then (collectAllSkus env region_names currency, 100)
    else (region_prices1, step1.2.2)
  let rows := buildRows region_names display_names step2.1 env.geoMap env.locMap timestamp
  { rows := rows
    timestamp_utc := timestamp
    currency := currency
    data_source := data_source
    coverage_pct := roundTo 1 (step2.2 * 100) }

/-- `compute_region_stats` (service.py lines 209-305) with the module state
passed explicitly: takes the result cache and the two `time.monotonic()`
readings (line 236 for the TTL check, line 304 for the store), returns the
result and the updated cache. -/
def computeRegionStats (env : Env) (cache : Cache) (now nowStore : ℚ)
    (tenant_id : Option String) (currency : String) (_group_by : String) :
    SummaryResult × Cache :=
  let key := cacheKey tenant_id currency
  let hit : Option SummaryResult :=
    match lookupA cache key with
    | some (ts, data) => if now - ts < cacheTTL then some data else none
    | none => none
  match hit with
  | some data => (data, cache)
  | none =>
      match env.regions with
      | none =>
          -- discovery raised: empty result, cache left untouched (lines 246-253)
          ({ rows := [], timestamp_utc := env.nowIso, currency := currency,
             data_source := "live", coverage_pct := 0 }, cache)
      | some regions =>
          let result := computeWithRegions env tenant_id currency regions
          (result, insertA cache key (nowStore, result))

/-- `CheapestRegionRow` as `get_cheapest_regions` constructs it (service.py
lines 344-355); same `sku_count` naming note as `RegionPriceRow`. -/
structure CheapestRegionRow where
  rank : ℕ
  geography : String
  region_name : String
  region_id : String
  avg_price : ℚ
  delta_vs_cheapest : ℚ
  availability_pct : ℚ
  sku_count : ℕ
  priced_count : ℕ
  timestamp_utc : String
deriving DecidableEq

/-- Serialised form of `CheapestRegionRow.to_dict` (models.py lines 54-67):
prices and delta rounded to 6 digits, availability to 2. -/
structure CheapestRowDict where
  rank : ℕ
  geography : String
  regionName : String
  regionId : String
  avgPrice : ℚ
  deltaVsCheapest : ℚ
  availabilityPct : ℚ
  skuCount : ℕ
  pricedCount : ℕ
  timestampUtc : String
deriving DecidableEq

/-- `CheapestRegionRow.to_dict` (models.py lines 54-67). -/
def CheapestRegionRow.toDict (r : CheapestRegionRow) : CheapestRowDict :=
  { rank := r.rank
    geography := r.geography
    regionName := r.region_name
    regionId := r.region_id
    avgPrice := roundTo 6 r.avg_price
    deltaVsCheapest := roundTo 6 r.delta_vs_cheapest
    availabilityPct := roundTo 2 r.availability_pct
    skuCount := r.sku_count
    pricedCount := r.priced_count
    timestampUtc := r.timestamp_utc }

/-- Sort-key comparison of `priced.sort(key=lambda r: r.avg_price or 0)`
(service.py line 336); same stability remark as `rowLe`. -/
def avgPriceLe (r s : RegionPriceRow) : Prop :=
  r.avg_price.getD 0 ≤ s.avg_price.getD 0

instance : DecidableRel avgPriceLe := fun r s => by
  unfold avgPriceLe; infer_instance

instance : IsTotal RegionPriceRow avgPriceLe where
  total _ _ := le_total _ _

instance : IsTrans RegionPriceRow avgPriceLe where
  trans _ _ _ h12 h23 := le_trans h12 h23

/-- The `priced` list of `get_cheapest_regions` after its in-place sort
(service.py lines 335-336), factored out for the lemmas below. -/
def sortedPriced (rows : List RegionPriceRow) : List RegionPriceRow :=
  List.insertionSort avgPriceLe (rows.filter (fun r => r.avg_price.isSome))

/-- The ranking part of `get_cheapest_regions` (service.py lines 335-357),
as a function of the summary's rows: filter to non-null averages, sort by
`r.avg_price or 0`, take the first `top_n`, build 1-based ranked rows with
`delta_vs_cheapest` relative to the first sorted row. -/
def cheapestFromRows (rows : List RegionPriceRow) (top_n : ℕ) :
    List CheapestRowDict :=
  let priced := sortedPriced rows
  match priced with
  | [] => []
  | first :: _ =>
      let cheapest_price := first.avg_price.getD 0
      (priced.take top_n).enum.map (fun ir =>
        CheapestRegionRow.toDict
          { rank := ir.1 + 1
            geography := ir.2.geography
            region_name := ir.2.region_name
            region_id := ir.2.region_id
            avg_price := ir.2.avg_price.getD 0
            delta_vs_cheapest := ir.2.avg_price.getD 0 - cheapest_price
            availability_pct := ir.2.availability_pct
            sku_count := ir.2.sku_count
            priced_count := ir.2.priced_count
            timestamp_utc := ir.2.timestamp_utc })

/-- `get_cheapest_regions` (service.py lines 308-357): compute (or fetch
from cache) the summary, rank its rows, return the ranked dicts and the
summary's data-source label, threading the cache state. -/
def getCheapestRegions (env : Env) (cache : Cache) (now nowStore : ℚ)
    (tenant_id : Option String) (currency : String) (top_n : ℕ) :
    (List CheapestRowDict × String) × Cache :=
  let sc := computeRegionStats env cache now nowStore tenant_id currency "region"
  ((cheapestFromRows sc.1.rows top_n, sc.1.data_source), sc.2)

/-- The `__init__` fields of the `RegionPriceSummaryResult` dataclass as
checked in (models.py lines 70-77). -/
def regionPriceSummaryResultInitFields : List String :=
  ["rows", "timestamp_utc", "sample_skus", "currency"]

/-- The keyword arguments `compute_region_stats` passes when constructing
its result (service.py lines 297-303). -/
def computeRegionStatsResultKwargs : List String :=
  ["rows", "timestamp_utc", "currency", "data_source", "coverage_pct"]

/-- The `__init__` fields of the `RegionPriceRow` dataclass as checked in
(models.py lines 6-20). -/
def regionPriceRowInitFields : List String :=
  ["geography", "region_name", "region_id", "avg_price", "availability_pct",
   "sample_size", "priced_count", "timestamp_utc", "country_code", "lat", "lon"]

/-- The keyword arguments `_build_rows` passes when constructing each row
(service.py lines 127-139). -/
def buildRowsRowKwargs : List String :=
  ["geography", "region_name", "region_id", "avg_price", "availability_pct",
   "sku_count", "priced_count", "timestamp_utc", "country_code", "lat", "lon"]

/-! ## Concrete request fixtures used by witnesses and counterexamples -/

/-- A one-region request environment whose bulk-cache status call fails
(`ConnectionError` on the status GET), forcing the live path. -/
def envLive : Env :=
  { regions := some [⟨"r1", "R1"⟩]
    retail := fun region _ =>
      if region = "r1" then some [("s1", some 1), ("s2", some 2)] else some []
    dbStatus := none
    dbQuery := fun _ _ _ => none
    nowIso := "2026-01-01T00:00:00+00:00"
    geoMap := []
    locMap := [] }

/-- `envLive` with the discovery collaborator raising. -/
def envDiscFail : Env :=
  { envLive with regions := none }

/-- A cached summary value used by the cache-behaviour witness. -/
def storedResultW : SummaryResult :=
  ⟨[], "2025-12-31T23:55:00+00:00", "USD", "db", 50⟩

/-- `envLive` with discovery succeeding but returning zero regions. -/
def envNoRegions : Env :=
  { envLive with regions := some [] }

/-- The row `_build_rows` produces for a region `"a"` with price data
`{"s": 1, "t": None}` and empty lookup tables: average `1`, availability
`50`, 2 SKUs of which 1 priced. -/
def rowW : RegionPriceRow :=
  ⟨"Unknown", "a", "a", some 1, 50, 2, 1, "ts", "", none, none⟩

/-- A two-region request environment whose bulk cache is connected and
populated but only holds region `"r1"`: coverage 2/4 < 0.70, so the hybrid
path re-fetches `"r2"` live. -/
def envC4 : Env :=
  { regions := some [⟨"r1", "R1"⟩, ⟨"r2", "R2"⟩]
    retail := fun region _ =>
      if region = "r1" then some [("s1", some 1), ("s2", some 2)]
      else if region = "r2" then some [("s1", some 3), ("s2", some 4)]
      else some []
    dbStatus := some ⟨true, 5⟩
    dbQuery := fun _ _ _ => some [⟨"r1", "s1", some 1⟩, ⟨"r1", "s2", some 2⟩]
    nowIso := "2026-01-01T00:00:00+00:00"
    geoMap := []
    locMap := [] }

/-- A summary row with average price 2, used by the ranking witness. -/
def rowA : RegionPriceRow :=
  ⟨"g", "A", "a", some 2, 100, 1, 1, "ts", "", none, none⟩

/-- A summary row with average price 1, used by the ranking witness. -/
def rowB : RegionPriceRow :=
  ⟨"g", "B", "b", some 1, 100, 1, 1, "ts", "", none, none⟩

/-! ## Theorems for the claims -/

/-- The region ids of `_build_rows`' output are a permutation of the
requested region names: the sort permutes the one-row-per-region list. -/
theorem buildRows_region_ids_perm (rns : List String) (dn : List (String × String))
    (rp : RegionPrices) (gm : List (String × String)) (lm : List (String × LocEntry))
    (ts : String) :
    ((buildRows rns dn rp gm lm ts).map (fun r => r.region_id)).Perm rns := by
  unfold buildRows
  have h1 := (List.perm_insertionSort rowLe
    (rns.map (buildRowOne dn rp gm lm ts))).map (fun r : RegionPriceRow => r.region_id)
  refine h1.trans ?_
  rw [List.map_map]
  have h2 : ∀ l : List String,
      l.map ((fun r : RegionPriceRow => r.region_id) ∘ buildRowOne dn rp gm lm ts) = l := by
    intro l
    induction l with
    | nil => rfl
    | cons x xs ih => simp [buildRowOne, ih, Function.comp]
  exact List.Perm.of_eq (h2 rns)

/-- `_build_rows` returns the empty list exactly when the requested region
list is empty. -/
theorem buildRows_eq_nil_iff (rns : List String) (dn : List (String × String))
    (rp : RegionPrices) (gm : List (String × String)) (lm : List (String × LocEntry))
    (ts : String) :
    buildRows rns dn rp gm lm ts = [] ↔ rns = [] := by
  constructor
  · intro h
    have := (buildRows_region_ids_perm rns dn rp gm lm ts).length_eq
    rw [h] at this
    simpa using (List.length_eq_zero.mp this.symm)
  · intro h
    subst h
    rfl

/-- C10: `compute_region_stats` is independent of the `group_by` argument —
two calls equal in tenant and currency but differing in `group_by` return
the same result and leave the same cache; `group_by` is not part of the
cache key and never influences the computation. -/
theorem c10_group_by_independent (env : Env) (cache : Cache) (now nowStore : ℚ)
    (tenant_id : Option String) (currency g g' : String) :
    computeRegionStats env cache now nowStore tenant_id currency g =
      computeRegionStats env cache now nowStore tenant_id currency g' := rfl

/-- C1: the claim says `compute_region_stats` returns a `SummaryResult`
carrying a data-source label and a coverage percentage; `service.py` indeed
passes `data_source=`/`coverage_pct=` (and `_build_rows` passes
`sku_count=`), but the checked-in `models.py` dataclasses accept no such
fields — so the construction raises `TypeError` instead of returning that
result.  The intent (spec, routes, tools, tests asserting
`result.data_source`) is clear and `models.py` is the slip: code bug. -/
theorem c1_summary_fields_code_bug :
    ("data_source" ∈ computeRegionStatsResultKwargs ∧
      "data_source" ∉ regionPriceSummaryResultInitFields) ∧
    ("coverage_pct" ∈ computeRegionStatsResultKwargs ∧
      "coverage_pct" ∉ regionPriceSummaryResultInitFields) ∧
    ("sku_count" ∈ buildRowsRowKwargs ∧
      "sku_count" ∉ regionPriceRowInitFields) := by decide

/-- C2: with the bulk cache unavailable the data source is `"live"` and all
regions are fetched live, but the reported coverage is `10000.0`, not `100`
as the claim states: the live branch stores `coverage_pct = 100.0` into a
variable that the result constructor multiplies by 100 (it holds a 0-1
ratio on every other path) — `round(100.0 * 100, 1) = 10000.0`.  Code
bug, evaluated here on a concrete one-region request with the status call
failing. -/
theorem c2_live_coverage_code_bug :
    (computeRegionStats envLive [] 0 1 none "USD" "region").1.data_source = "live" ∧
    ((computeRegionStats envLive [] 0 1 none "USD" "region").1.rows.map
        (fun r => r.region_id)) = ["r1"] ∧
    (computeRegionStats envLive [] 0 1 none "USD" "region").1.coverage_pct = 10000 ∧
    (computeRegionStats envLive [] 0 1 none "USD" "region").1.coverage_pct ≠ 100 := by
  norm_num [computeRegionStats, computeWithRegions, tryDbProvider, dbIsAvailable,
    collectAllSkus, buildRows, buildRowOne, envLive, lookupA, insertA, cacheKey,
    roundTo, round_eq, List.insertionSort, List.orderedInsert]

/-- C8: when the discovery collaborator raises, `compute_region_stats`
returns an empty result (no rows) carrying the current timestamp and the
requested currency, and leaves the result cache unchanged for that key. -/
theorem c8_discovery_failure (env : Env) (cache : Cache) (now nowStore : ℚ)
    (tenant_id : Option String) (currency group_by : String)
    (hdisc : env.regions = none)
    (hmiss : lookupA cache (cacheKey tenant_id currency) = none) :
    (computeRegionStats env cache now nowStore tenant_id currency group_by).1.rows = [] ∧
    (computeRegionStats env cache now nowStore tenant_id currency group_by).1.timestamp_utc
      = env.nowIso ∧
    (computeRegionStats env cache now nowStore tenant_id currency group_by).1.currency
      = currency ∧
    (computeRegionStats env cache now nowStore tenant_id currency group_by).2 = cache := by
  simp [computeRegionStats, hmiss, hdisc]

/-- Witness for C8 at a concrete request: discovery raising on the
`envDiscFail` fixture with an empty cache. -/
theorem c8_discovery_failure_witness :
    (computeRegionStats envDiscFail [] 0 1 none "USD" "region").1.rows = [] ∧
    (computeRegionStats envDiscFail [] 0 1 none "USD" "region").1.timestamp_utc
      = envDiscFail.nowIso ∧
    (computeRegionStats envDiscFail [] 0 1 none "USD" "region").1.currency = "USD" ∧
    (computeRegionStats envDiscFail [] 0 1 none "USD" "region").2 = [] :=
  c8_discovery_failure envDiscFail [] 0 1 none "USD" "region" rfl rfl

/-- C7: (1) a call finding a cache entry younger than the 600-second TTL
returns the stored result verbatim and does not touch the cache — the
conclusion is independent of the environment, so nothing is recomputed;
(2) for a fixed tenant, different currencies give different cache keys;
(3) a call whose key misses computes a result independent of the other
entries in the cache. -/
theorem c7_cache_hit_and_keys :
    (∀ (env : Env) (cache : Cache) (now nowStore t0 : ℚ) (tenant : Option String)
        (currency gb : String) (r0 : SummaryResult),
        lookupA cache (cacheKey tenant currency) = some (t0, r0) →
        now - t0 < cacheTTL →
        computeRegionStats env cache now nowStore tenant currency gb = (r0, cache)) ∧
    (∀ (tenant : Option String) (c c' : String), c ≠ c' →
        cacheKey tenant c ≠ cacheKey tenant c') ∧
    (∀ (env : Env) (cache : Cache) (now nowStore : ℚ) (tenant : Option String)
        (currency gb : String),
        lookupA cache (cacheKey tenant currency) = none →
        (computeRegionStats env cache now nowStore tenant currency gb).1 =
          (computeRegionStats env [] now nowStore tenant currency gb).1) := by
  refine ⟨?_, ?_, ?_⟩
  · intro env cache now nowStore t0 tenant currency gb r0 hl hlt
    simp [computeRegionStats, hl, hlt]
  · intro tenant c c' hne heq
    apply hne
    have h := congrArg String.data heq
    simp only [cacheKey, String.data_append] at h
    exact String.ext (List.append_cancel_left h)
  · intro env cache now nowStore tenant currency gb hmiss
    have h0 : lookupA ([] : Cache) (cacheKey tenant currency) = none := rfl
    simp only [computeRegionStats, hmiss, h0]
    cases env.regions <;> simp

/-- Witness for C7: a concrete sub-TTL hit returning the stored result
verbatim with the cache untouched, and the key for `"EUR"` differing from
the key for `"USD"`. -/
theorem c7_cache_hit_and_keys_witness :
    computeRegionStats envLive [(cacheKey none "USD", (0, storedResultW))] 10 11
        none "USD" "region"
      = (storedResultW, [(cacheKey none "USD", (0, storedResultW))]) ∧
    cacheKey none "USD" ≠ cacheKey none "EUR" :=
  ⟨c7_cache_hit_and_keys.1 envLive [(cacheKey none "USD", (0, storedResultW))] 10 11 0
      none "USD" "region" storedResultW (by decide) (by norm_num [cacheTTL]),
   c7_cache_hit_and_keys.2.1 none "USD" "EUR" (by decide)⟩

/-- C6: in every summary the rows are sorted ascending by average price, and
every row with a null average price appears after all rows with a non-null
average price. -/
theorem c6_rows_sorted_nulls_last (rns : List String) (dn : List (String × String))
    (rp : RegionPrices) (gm : List (String × String)) (lm : List (String × LocEntry))
    (ts : String) :
    List.Pairwise
      (fun r s : RegionPriceRow =>
        (∀ p q : ℚ, r.avg_price = some p → s.avg_price = some q → p ≤ q) ∧
        (r.avg_price = none → s.avg_price = none))
      (buildRows rns dn rp gm lm ts) := by
  have h : List.Pairwise rowLe
      ((rns.map (buildRowOne dn rp gm lm ts)).insertionSort rowLe) :=
    List.sorted_insertionSort rowLe (rns.map (buildRowOne dn rp gm lm ts))
  refine List.Pairwise.imp ?_ h
  intro a b hab
  rcases hab with ⟨h1, h2⟩ | ⟨h1, h2⟩
  · constructor
    · intro p q _hp hq
      rw [hq] at h2
      simp at h2
    · intro ha
      rw [ha] at h1
      simp at h1
  · constructor
    · intro p q hp hq
      rw [hp, hq] at h2
      simpa using h2
    · intro ha
      rw [ha] at h1
      cases hb : b.avg_price with
      | none => rfl
      | some q =>
          rw [hb] at h1
          simp at h1

/-- C9: for every row of a built summary, the serialised availability
percentage equals `round(100·priced_count/sku_count, 2)` when the SKU count
is positive, and `0` when the SKU count is zero. -/
theorem c9_availability_pct (rns : List String) (dn : List (String × String))
    (rp : RegionPrices) (gm : List (String × String)) (lm : List (String × LocEntry))
    (ts : String) (r : RegionPriceRow)
    (hr : r ∈ buildRows rns dn rp gm lm ts) :
    (r.sku_count ≠ 0 →
      (RegionPriceRow.toDict r).availabilityPct
        = roundTo 2 (100 * (r.priced_count : ℚ) / (r.sku_count : ℚ))) ∧
    (r.sku_count = 0 → (RegionPriceRow.toDict r).availabilityPct = 0) := by
  have hr' : r ∈ rns.map (buildRowOne dn rp gm lm ts) :=
    (List.perm_insertionSort rowLe _).mem_iff.mp hr
  rcases List.mem_map.mp hr' with ⟨rn, _hrn, heq⟩
  subst heq
  constructor
  · intro hm
    simp only [buildRowOne, RegionPriceRow.toDict] at hm ⊢
    rw [if_pos hm]
    congr 1
    ring
  · intro hm
    simp only [buildRowOne, RegionPriceRow.toDict] at hm ⊢
    rw [if_neg (by simpa using hm)]
    simp [roundTo]

/-- Witness for C9 on the concrete region `"a"` with price data
`{"s": 1, "t": None}`: 1 priced of 2 SKUs serialises to `round(100·1/2, 2)`. -/
theorem c9_availability_pct_witness :
    (RegionPriceRow.toDict rowW).availabilityPct
      = roundTo 2 (100 * (rowW.priced_count : ℚ) / (rowW.sku_count : ℚ)) := by
  have hmem : rowW ∈ buildRows ["a"] [] [("a", [("s", some 1), ("t", none)])] [] [] "ts" := by
    norm_num [buildRows, buildRowOne, rowW, lookupA, List.insertionSort,
      List.orderedInsert, roundTo, round_eq, List.filterMap_cons, List.filterMap_nil]
  exact (c9_availability_pct _ _ _ _ _ _ rowW hmem).1 (by norm_num [rowW])

/-- C3 counterexample: discovery *succeeding* with an empty region list also
yields an empty row list, so "the row list is empty only when discovery
itself failed" is false as stated. -/
theorem c3_empty_discovery_counterexample :
    (computeRegionStats envNoRegions [] 0 1 none "USD" "region").1.rows = [] ∧
    envNoRegions.regions = some [] := by
  constructor
  · norm_num [computeRegionStats, computeWithRegions, tryDbProvider, dbIsAvailable,
      collectAllSkus, buildRows, buildRowOne, envNoRegions, envLive, lookupA, insertA,
      cacheKey, List.insertionSort]
  · rfl

/-- C3 (amended): on a cache miss, every discovered region appears exactly
once in the row list (the region ids are a permutation of the discovered
names), and the row list is empty iff discovery failed or returned zero
regions. -/
theorem c3_rows_exactly_discovered (env : Env) (cache : Cache) (now nowStore : ℚ)
    (tenant : Option String) (currency gb : String)
    (hmiss : lookupA cache (cacheKey tenant currency) = none) :
    (∀ regions, env.regions = some regions →
      (((computeRegionStats env cache now nowStore tenant currency gb).1.rows.map
          (fun r => r.region_id)).Perm (regions.map (fun ri => ri.name)) ∧
        ((computeRegionStats env cache now nowStore tenant currency gb).1.rows = []
          ↔ regions = []))) ∧
    (env.regions = none →
      (computeRegionStats env cache now nowStore tenant currency gb).1.rows = []) := by
  constructor
  · intro regions hreg
    have hres : (computeRegionStats env cache now nowStore tenant currency gb).1
        = computeWithRegions env tenant currency regions := by
      simp [computeRegionStats, hmiss, hreg]
    rw [hres]
    simp only [computeWithRegions]
    constructor
    · exact (buildRows_region_ids_perm _ _ _ _ _ _).trans (List.Perm.of_eq rfl)
    · rw [buildRows_eq_nil_iff]
      simp
  · intro hreg
    simp [computeRegionStats, hmiss, hreg]

/-- Witness for C3's amended statement: the one-region fixture gives rows
permuting `["r1"]` and a nonempty row list; the discovery-failure fixture
gives an empty row list. -/
theorem c3_rows_exactly_discovered_witness :
    (((computeRegionStats envLive [] 0 1 none "USD" "region").1.rows.map
        (fun r => r.region_id)).Perm
      (([⟨"r1", "R1"⟩] : List RegionInfo).map (fun ri => ri.name))) ∧
    ((computeRegionStats envLive [] 0 1 none "USD" "region").1.rows = []
      ↔ ([⟨"r1", "R1"⟩] : List RegionInfo) = []) ∧
    (computeRegionStats envDiscFail [] 0 1 none "USD" "region").1.rows = [] := by
  have h1 := c3_rows_exactly_discovered envLive [] 0 1 none "USD" "region" rfl
  have h2 := c3_rows_exactly_discovered envDiscFail [] 0 1 none "USD" "region" rfl
  exact ⟨(h1.1 _ rfl).1, (h1.1 _ rfl).2, h2.2 rfl⟩

/-- `round(·, n)` is monotone. -/
theorem roundTo_mono (n : ℕ) {a b : ℚ} (h : a ≤ b) : roundTo n a ≤ roundTo n b := by
  unfold roundTo
  have h10 : (0 : ℚ) < 10 ^ n := by positivity
  have hr : round (a * 10 ^ n) ≤ round (b * 10 ^ n) := by
    rw [round_eq, round_eq]
    exact Int.floor_mono (by nlinarith)
  exact (div_le_div_iff_of_pos_right h10).mpr (by exact_mod_cast hr)

/-- `round(·, n)` fixes every rational with denominator `10 ^ n`. -/
theorem roundTo_fixed (n : ℕ) (k : ℤ) :
    roundTo n ((k : ℚ) / 10 ^ n) = (k : ℚ) / 10 ^ n := by
  unfold roundTo
  rw [div_mul_cancel₀ _ (by positivity : (10 : ℚ) ^ n ≠ 0), round_intCast]

theorem sortedPriced_pairwise (rows : List RegionPriceRow) :
    List.Pairwise avgPriceLe (sortedPriced rows) :=
  List.sorted_insertionSort avgPriceLe _

theorem sortedPriced_perm (rows : List RegionPriceRow) :
    (sortedPriced rows).Perm (rows.filter (fun r => r.avg_price.isSome)) :=
  List.perm_insertionSort avgPriceLe _

theorem sortedPriced_mem_rows {rows : List RegionPriceRow} {r : RegionPriceRow}
    (h : r ∈ sortedPriced rows) : r ∈ rows ∧ r.avg_price.isSome :=
  List.mem_filter.mp ((sortedPriced_perm rows).mem_iff.mp h)

/-- Length of the ranking: `min top_n` (number of non-null-average rows). -/
theorem cheapestFromRows_length (rows : List RegionPriceRow) (top_n : ℕ) :
    (cheapestFromRows rows top_n).length
      = min top_n (rows.filter (fun r => r.avg_price.isSome)).length := by
  have hlen := (sortedPriced_perm rows).length_eq
  cases hs : sortedPriced rows with
  | nil =>
      rw [hs] at hlen
      simp only [cheapestFromRows, hs]
      simp [← hlen]
  | cons f r =>
      rw [hs] at hlen
      simp only [cheapestFromRows, hs]
      simp [← hlen]

/-- Characterisation of the `i`-th ranked row: its fields come from the
`i`-th element of the sorted priced list, with rank `i + 1` and delta
relative to the sorted head. -/
theorem cheapestFromRows_get (rows : List RegionPriceRow) (top_n i : ℕ)
    (h : i < (cheapestFromRows rows top_n).length) :
    ∃ (hi : i < (sortedPriced rows).length) (h0 : 0 < (sortedPriced rows).length),
      (cheapestFromRows rows top_n).get ⟨i, h⟩
        = CheapestRegionRow.toDict
            { rank := i + 1
              geography := ((sortedPriced rows).get ⟨i, hi⟩).geography
              region_name := ((sortedPriced rows).get ⟨i, hi⟩).region_name
              region_id := ((sortedPriced rows).get ⟨i, hi⟩).region_id
              avg_price := ((sortedPriced rows).get ⟨i, hi⟩).avg_price.getD 0
              delta_vs_cheapest := ((sortedPriced rows).get ⟨i, hi⟩).avg_price.getD 0
                - ((sortedPriced rows).get ⟨0, h0⟩).avg_price.getD 0
              availability_pct := ((sortedPriced rows).get ⟨i, hi⟩).availability_pct
              sku_count := ((sortedPriced rows).get ⟨i, hi⟩).sku_count
              priced_count := ((sortedPriced rows).get ⟨i, hi⟩).priced_count
              timestamp_utc := ((sortedPriced rows).get ⟨i, hi⟩).timestamp_utc } := by
  cases hs : sortedPriced rows with
  | nil =>
      exfalso
      have hout : cheapestFromRows rows top_n = [] := by
        simp only [cheapestFromRows, hs]
      rw [hout] at h
      simp at h
  | cons f r =>
      have hle : (cheapestFromRows rows top_n).length ≤ (f :: r).length := by
        simp only [cheapestFromRows, hs]
        simp [Nat.min_le_right]
      have hi : i < (f :: r).length := by omega
      have h0 : 0 < (f :: r).length := by simp
      refine ⟨hi, h0, ?_⟩
      rw [List.get_eq_getElem, List.get_eq_getElem, List.get_eq_getElem]
      simp only [cheapestFromRows, hs]
      simp only [List.getElem_map, List.getElem_enum, List.getElem_take,
        List.getElem_cons_zero]

/-- C5: for every ranking of the cheapest operation — (1) its length is
`min top_n` (number of rows with non-null average), so only non-null-average
rows are eligible and at most `top_n` are returned; (2) rank is 1-based;
(3) the ranked rows are sorted ascending by serialised average price;
(4) each row's `deltaVsCheapest` equals its `avgPrice` minus the first
ranked row's `avgPrice` exactly (given that the averages carry at most six
decimal digits, which `_build_rows` guarantees); (5) the first ranked row's
delta is exactly 0; (6) every ranked row originates from an input row with
a non-null average; (7) if no input row has a non-null average, the ranking
is empty. -/
theorem c5_cheapest_ranking (rows : List RegionPriceRow) (top_n : ℕ)
    (h6 : ∀ r ∈ rows, ∀ q : ℚ, r.avg_price = some q → ∃ k : ℤ, q = (k : ℚ) / 10 ^ 6) :
    ((cheapestFromRows rows top_n).length
        = min top_n (rows.filter (fun r => r.avg_price.isSome)).length) ∧
    (∀ (i : ℕ) (h : i < (cheapestFromRows rows top_n).length),
        ((cheapestFromRows rows top_n).get ⟨i, h⟩).rank = i + 1) ∧
    List.Pairwise (fun a b : CheapestRowDict => a.avgPrice ≤ b.avgPrice)
      (cheapestFromRows rows top_n) ∧
    (∀ (i : ℕ) (h : i < (cheapestFromRows rows top_n).length)
        (h0 : 0 < (cheapestFromRows rows top_n).length),
        ((cheapestFromRows rows top_n).get ⟨i, h⟩).deltaVsCheapest
          = ((cheapestFromRows rows top_n).get ⟨i, h⟩).avgPrice
            - ((cheapestFromRows rows top_n).get ⟨0, h0⟩).avgPrice) ∧
    (∀ h0 : 0 < (cheapestFromRows rows top_n).length,
        ((cheapestFromRows rows top_n).get ⟨0, h0⟩).deltaVsCheapest = 0) ∧
    (∀ d ∈ cheapestFromRows rows top_n, ∃ r ∈ rows, ∃ q : ℚ,
        r.avg_price = some q ∧ d.avgPrice = roundTo 6 q ∧ d.regionId = r.region_id) ∧
    ((∀ r ∈ rows, r.avg_price = none) → cheapestFromRows rows top_n = []) := by
  refine ⟨cheapestFromRows_length rows top_n, ?_, ?_, ?_, ?_, ?_, ?_⟩
  · -- rank is 1-based
    intro i h
    obtain ⟨hi, h0, hg⟩ := cheapestFromRows_get rows top_n i h
    rw [hg]
    simp [CheapestRegionRow.toDict]
  · -- sorted ascending by serialised average
    rw [List.pairwise_iff_getElem]
    intro i j hi hj hij
    obtain ⟨hi', h0i, hgi⟩ := cheapestFromRows_get rows top_n i hi
    obtain ⟨hj', h0j, hgj⟩ := cheapestFromRows_get rows top_n j hj
    show ((cheapestFromRows rows top_n).get ⟨i, hi⟩).avgPrice
      ≤ ((cheapestFromRows rows top_n).get ⟨j, hj⟩).avgPrice
    rw [hgi, hgj]
    simp only [CheapestRegionRow.toDict]
    apply roundTo_mono
    have hp := (List.pairwise_iff_getElem.mp (sortedPriced_pairwise rows)) i j hi' hj' hij
    simpa [avgPriceLe, List.get_eq_getElem] using hp
  · -- delta equals avgPrice difference exactly
    intro i h h0
    obtain ⟨hi, h0i, hgi⟩ := cheapestFromRows_get rows top_n i h
    obtain ⟨h00, h00b, hg0⟩ := cheapestFromRows_get rows top_n 0 h0
    rw [hgi, hg0]
    simp only [CheapestRegionRow.toDict]
    obtain ⟨hmi, hsi⟩ := sortedPriced_mem_rows (List.get_mem (sortedPriced rows) i hi)
    obtain ⟨hm0, hs0⟩ := sortedPriced_mem_rows (List.get_mem (sortedPriced rows) 0 h00)
    obtain ⟨qi, hqi⟩ := Option.isSome_iff_exists.mp hsi
    obtain ⟨q0, hq0⟩ := Option.isSome_iff_exists.mp hs0
    obtain ⟨ki, hki⟩ := h6 _ hmi qi hqi
    obtain ⟨k0, hk0⟩ := h6 _ hm0 q0 hq0
    rw [hqi, hq0]
    simp only [Option.getD_some]
    have hsub : qi - q0 = ((ki - k0 : ℤ) : ℚ) / 10 ^ 6 := by
      rw [hki, hk0]
      push_cast
      ring
    rw [hsub, roundTo_fixed, hki, hk0, roundTo_fixed, roundTo_fixed]
    push_cast
    ring
  · -- the first ranked row's delta is 0
    intro h0
    obtain ⟨hi, h00, hg⟩ := cheapestFromRows_get rows top_n 0 h0
    rw [hg]
    simp only [CheapestRegionRow.toDict, sub_self]
    simp [roundTo]
  · -- origin of each ranked row
    intro d hd
    cases hs : sortedPriced rows with
    | nil =>
        rw [show cheapestFromRows rows top_n = [] by simp only [cheapestFromRows, hs]]
          at hd
        simp at hd
    | cons f r =>
        simp only [cheapestFromRows, hs] at hd
        rcases List.mem_map.mp hd with ⟨ir, hir, hgd⟩
        have hir2 : ir.2 ∈ (f :: r).take top_n := by
          have := List.mem_map_of_mem Prod.snd hir
          rwa [List.enum_map_snd] at this
        have hmem : ir.2 ∈ sortedPriced rows := by
          rw [hs]
          exact List.take_subset _ _ hir2
        obtain ⟨hmr, hsr⟩ := sortedPriced_mem_rows hmem
        obtain ⟨q, hq⟩ := Option.isSome_iff_exists.mp hsr
        refine ⟨ir.2, hmr, q, hq, ?_, ?_⟩
        · rw [← hgd]
          simp [CheapestRegionRow.toDict, hq]
        · rw [← hgd]
          simp [CheapestRegionRow.toDict]
  · -- no non-null average: empty ranking
    intro hall
    have hfil : rows.filter (fun r => r.avg_price.isSome) = [] :=
      List.filter_eq_nil_iff.mpr (fun a ha => by simp [hall a ha])
    have hsp : sortedPriced rows = [] := by
      unfold sortedPriced
      rw [hfil]
      rfl
    simp only [cheapestFromRows, hsp]

/-- Witness for C5 on the two-row fixture (averages 2 and 1): the ranking
has length `min 10 2` and is sorted ascending by serialised average. -/
theorem c5_cheapest_ranking_witness :
    ((cheapestFromRows [rowA, rowB] 10).length
        = min 10 (([rowA, rowB].filter (fun r => r.avg_price.isSome)).length)) ∧
    List.Pairwise (fun a b : CheapestRowDict => a.avgPrice ≤ b.avgPrice)
      (cheapestFromRows [rowA, rowB] 10) := by
  have h6 : ∀ r ∈ [rowA, rowB], ∀ q : ℚ, r.avg_price = some q →
      ∃ k : ℤ, q = (k : ℚ) / 10 ^ 6 := by
    intro r hr q hq
    have hr2 : r = rowA ∨ r = rowB := by simpa using hr
    rcases hr2 with rfl | rfl
    · simp only [rowA, Option.some.injEq] at hq
      exact ⟨2000000, by rw [← hq]; norm_num⟩
    · simp only [rowB, Option.some.injEq] at hq
      exact ⟨1000000, by rw [← hq]; norm_num⟩
  exact ⟨(c5_cheapest_ranking [rowA, rowB] 10 h6).1,
    (c5_cheapest_ranking [rowA, rowB] 10 h6).2.2.1⟩

/-! ### Association-list and merge lemmas for the hybrid-fill claim -/

theorem lookupA_insertA {α β : Type} [DecidableEq α] (l : List (α × β)) (k : α) (v : β)
    (k' : α) :
    lookupA (insertA l k v) k' = if k = k' then some v else lookupA l k' := by
  induction l with
  | nil => simp [insertA, lookupA]
  | cons hd tl ih =>
      obtain ⟨a, b⟩ := hd
      by_cases h1 : a = k
      · subst h1
        simp only [insertA, if_pos rfl, lookupA]
        by_cases h2 : a = k' <;> simp [h2]
      · simp only [insertA, if_neg h1, lookupA]
        by_cases h2 : a = k'
        · have hkk : ¬ k = k' := fun h => h1 (h2.symm ▸ h.symm ▸ rfl)
          simp [h2, hkk]
        · simp [h2, ih]

theorem lookupA_insertA_isSome {α β : Type} [DecidableEq α] {l : List (α × β)} {k' : α}
    (h : (lookupA l k').isSome) (k : α) (v : β) :
    (lookupA (insertA l k v) k').isSome := by
  rw [lookupA_insertA]
  split <;> simp [h]

theorem mem_insertA {α β : Type} [DecidableEq α] {pr : α × β} {l : List (α × β)} {k : α}
    {v : β} (h : pr ∈ insertA l k v) : pr = (k, v) ∨ pr ∈ l := by
  induction l with
  | nil => simpa [insertA] using h
  | cons hd tl ih =>
      obtain ⟨a, b⟩ := hd
      by_cases h1 : a = k
      · rw [insertA, if_pos h1] at h
        rcases List.mem_cons.mp h with h2 | h2
        · exact Or.inl h2
        · exact Or.inr (List.mem_cons_of_mem _ h2)
      · rw [insertA, if_neg h1] at h
        rcases List.mem_cons.mp h with h2 | h2
        · exact Or.inr (h2 ▸ List.mem_cons_self _ _)
        · rcases ih h2 with h3 | h3
          · exact Or.inl h3
          · exact Or.inr (List.mem_cons_of_mem _ h3)

/-- One `region_prices.setdefault(region, {})[sku] = price` step, seen
through the composite lookup. -/
theorem lookupInner_insert (acc : RegionPrices) (r0 s0 : String) (p : ℚ) (r s : String) :
    lookupInner (insertA acc r0 (insertA ((lookupA acc r0).getD []) s0 (some p))) r s
      = if r0 = r ∧ s0 = s then some (some p) else lookupInner acc r s := by
  unfold lookupInner
  rw [lookupA_insertA]
  by_cases h1 : r0 = r
  · rw [if_pos h1]
    simp only [Option.getD_some]
    rw [lookupA_insertA]
    subst h1
    by_cases h2 : s0 = s
    · simp [h2]
    · simp [h2]
  · rw [if_neg h1]
    simp [h1]

theorem mergePairs_cons (acc : RegionPrices) (r0 s0 : String) (p0 : ℚ)
    (tl : List ((String × String) × ℚ)) :
    mergePairs acc (((r0, s0), p0) :: tl)
      = mergePairs (insertA acc r0 (insertA ((lookupA acc r0).getD []) s0 (some p0))) tl :=
  rfl

theorem mergePairs_lookupA_of_not_mem {ps : List ((String × String) × ℚ)}
    {acc : RegionPrices} {r : String} (h : ∀ pr ∈ ps, pr.1.1 ≠ r) :
    lookupA (mergePairs acc ps) r = lookupA acc r := by
  induction ps generalizing acc with
  | nil => rfl
  | cons pr tl ih =>
      obtain ⟨⟨r0, s0⟩, p0⟩ := pr
      have hr0 : r0 ≠ r := h _ (List.mem_cons_self _ _)
      rw [mergePairs_cons, ih (fun pr hpr => h pr (List.mem_cons_of_mem _ hpr))]
      rw [lookupA_insertA, if_neg hr0]

theorem mergePairs_lookupInner_some {ps : List ((String × String) × ℚ)}
    {acc : RegionPrices} {r s : String} {p : ℚ}
    (h : lookupInner acc r s = some (some p)) :
    ∃ p2 : ℚ, lookupInner (mergePairs acc ps) r s = some (some p2) := by
  induction ps generalizing acc p with
  | nil => exact ⟨p, h⟩
  | cons pr tl ih =>
      obtain ⟨⟨r0, s0⟩, p0⟩ := pr
      rw [mergePairs_cons]
      by_cases hc : r0 = r ∧ s0 = s
      · exact ih (p := p0) (by rw [lookupInner_insert, if_pos hc])
      · exact ih (p := p) (by rw [lookupInner_insert, if_neg hc, h])

theorem mergePairs_lookupInner_of_key {ps : List ((String × String) × ℚ)}
    {acc : RegionPrices} {r s : String} (h : (lookupA ps (r, s)).isSome) :
    ∃ p2 : ℚ, lookupInner (mergePairs acc ps) r s = some (some p2) := by
  induction ps generalizing acc with
  | nil => simp [lookupA] at h
  | cons pr tl ih =>
      obtain ⟨⟨r0, s0⟩, p0⟩ := pr
      rw [mergePairs_cons]
      by_cases hc : (r0, s0) = (r, s)
      · have hc2 : r0 = r ∧ s0 = s := by
          rcases Prod.mk.injEq .. ▸ hc with ⟨h1, h2⟩
          exact ⟨h1, h2⟩
        exact mergePairs_lookupInner_some (by rw [lookupInner_insert, if_pos hc2])
      · rw [lookupA, if_neg hc] at h
        exact ih h

theorem mergePairs_values_some {ps : List ((String × String) × ℚ)} {acc : RegionPrices}
    (h : ∀ r s v, lookupInner acc r s = some v → v.isSome) :
    ∀ r s v, lookupInner (mergePairs acc ps) r s = some v → v.isSome := by
  induction ps generalizing acc with
  | nil => exact h
  | cons pr tl ih =>
      obtain ⟨⟨r0, s0⟩, p0⟩ := pr
      rw [mergePairs_cons]
      refine ih ?_
      intro r s v hv
      rw [lookupInner_insert] at hv
      by_cases hc : r0 = r ∧ s0 = s
      · rw [if_pos hc] at hv
        simp only [Option.some.injEq] at hv
        rw [← hv]
        rfl
      · rw [if_neg hc] at hv
        exact h r s v hv

/-- Every pair of one region's live fetch carries that region as key. -/
theorem coreFetchRegion_region {env : Env} {skus : List String} {currency region : String} :
    ∀ pr ∈ coreFetchRegion env skus currency region, pr.1.1 = region := by
  unfold coreFetchRegion
  cases hrt : env.retail region currency with
  | none => simp
  | some prices =>
      suffices h : ∀ (l : SkuPrices) (acc : List ((String × String) × ℚ)),
          (∀ pr ∈ acc, pr.1.1 = region) →
          ∀ pr ∈ l.foldl (fun part sp =>
              if skus ≠ [] ∧ ¬ (skus.map String.toLower).contains sp.1.toLower then part
              else
                match sp.2 with
                | some p => insertA part (region, sp.1) p
                | none => part) acc, pr.1.1 = region by
        exact h prices [] (by simp)
      intro l
      induction l with
      | nil => exact fun acc hacc => hacc
      | cons sp tl ih =>
          intro acc hacc
          rw [List.foldl_cons]
          apply ih
          intro pr hpr
          by_cases hif : skus ≠ [] ∧ ¬ (skus.map String.toLower).contains sp.1.toLower
          · rw [if_pos hif] at hpr
            exact hacc pr hpr
          · rw [if_neg hif] at hpr
            cases hsp : sp.2 with
            | some p =>
                rw [hsp] at hpr
                rcases mem_insertA hpr with h | h
                · rw [h]
                · exact hacc pr h
            | none =>
                rw [hsp] at hpr
                exact hacc pr hpr

/-- A SKU present with a non-null price in a fetched region's catalog that
passes the (case-insensitive) filter ends up in that region's `partial`
dict. -/
theorem coreFetchRegion_keys {env : Env} {skus : List String} {currency region : String}
    {ps : SkuPrices} (hret : env.retail region currency = some ps) {sku : String} {p : ℚ}
    (hmem : (sku, some p) ∈ ps)
    (hfil : skus = [] ∨ (skus.map String.toLower).contains sku.toLower = true) :
    (lookupA (coreFetchRegion env skus currency region) (region, sku)).isSome := by
  unfold coreFetchRegion
  rw [hret]
  suffices h : ∀ (l : SkuPrices) (acc : List ((String × String) × ℚ)),
      ((sku, some p) ∈ l ∨ (lookupA acc (region, sku)).isSome) →
      (lookupA (l.foldl (fun part sp =>
          if skus ≠ [] ∧ ¬ (skus.map String.toLower).contains sp.1.toLower then part
          else
            match sp.2 with
            | some p => insertA part (region, sp.1) p
            | none => part) acc) (region, sku)).isSome by
    exact h ps [] (Or.inl hmem)
  intro l
  induction l with
  | nil =>
      intro acc h
      rcases h with h | h
      · simp at h
      · simpa using h
  | cons sp tl ih =>
      intro acc h
      obtain ⟨s1, s2⟩ := sp
      rw [List.foldl_cons]
      apply ih
      rcases h with h | h
      · rcases List.mem_cons.mp h with heq | htl
        · obtain ⟨h1, h2⟩ := Prod.mk.injEq .. ▸ heq
          subst h1
          right
          have hcond : ¬ (skus ≠ [] ∧
              ¬ (skus.map String.toLower).contains (sku : String).toLower) := by
            rcases hfil with h3 | h3
            · simp [h3]
            · exact fun hc => hc.2 h3
          simp only [if_neg hcond, ← h2]
          rw [lookupA_insertA, if_pos rfl]
          rfl
        · exact Or.inl htl
      · right
        by_cases hif : skus ≠ [] ∧ ¬ (skus.map String.toLower).contains s1.toLower
        · rwa [if_pos hif]
        · rw [if_neg hif]
          cases s2 with
          | some p2 => exact lookupA_insertA_isSome h _ _
          | none => exact h

/-- `result.update(partial)` preserves and adds keys. -/
theorem updateFold_isSome {pairs acc : List ((String × String) × ℚ)} {k : String × String}
    (h : (lookupA pairs k).isSome ∨ (lookupA acc k).isSome) :
    (lookupA (pairs.foldl (fun acc2 pr => insertA acc2 pr.1 pr.2) acc) k).isSome := by
  induction pairs generalizing acc with
  | nil =>
      rcases h with h | h
      · simp [lookupA] at h
      · simpa using h
  | cons pr0 tl ih =>
      obtain ⟨k0, v0⟩ := pr0
      rw [List.foldl_cons]
      apply ih
      rcases h with h | h
      · by_cases hk : k0 = k
        · right
          subst hk
          rw [lookupA_insertA, if_pos rfl]
          rfl
        · left
          simp only [lookupA, if_neg hk] at h
          exact h
      · exact Or.inr (lookupA_insertA_isSome h _ _)

/-- All pairs a `result.update(partial)` fold can contain satisfy any
property holding for the accumulator's and the update's pairs. -/
theorem updateFold_prop {P : ((String × String) × ℚ) → Prop}
    {pairs acc : List ((String × String) × ℚ)}
    (hp : ∀ pr ∈ pairs, P pr) (ha : ∀ pr ∈ acc, P pr) :
    ∀ pr ∈ pairs.foldl (fun acc2 pr => insertA acc2 pr.1 pr.2) acc, P pr := by
  induction pairs generalizing acc with
  | nil => exact ha
  | cons pr0 tl ih =>
      rw [List.foldl_cons]
      apply ih (fun pr hpr => hp pr (List.mem_cons_of_mem _ hpr))
      intro pr hpr
      rcases mem_insertA hpr with h | h
      · rw [h]
        exact hp pr0 (List.mem_cons_self _ _)
      · exact ha pr h

/-- A key present in one requested region's fetch is present in the bulk
result. -/
theorem corePricesBulk_keys {env : Env} {regions skus : List String} {currency : String}
    {region sku : String} (hreg : region ∈ regions)
    (hkey : (lookupA (coreFetchRegion env skus currency region) (region, sku)).isSome) :
    (lookupA (corePricesBulk env regions skus currency) (region, sku)).isSome := by
  unfold corePricesBulk
  suffices h : ∀ (rs : List String) (acc : List ((String × String) × ℚ)),
      (region ∈ rs ∨ (lookupA acc (region, sku)).isSome) →
      (lookupA (rs.foldl (fun acc region =>
          (coreFetchRegion env skus currency region).foldl
            (fun acc2 pr => insertA acc2 pr.1 pr.2) acc) acc) (region, sku)).isSome by
    exact h regions [] (Or.inl hreg)
  intro rs
  induction rs with
  | nil =>
      intro acc h
      rcases h with h | h
      · simp at h
      · simpa using h
  | cons r0 tl ih =>
      intro acc h
      rw [List.foldl_cons]
      apply ih
      rcases h with h | h
      · rcases List.mem_cons.mp h with heq | htl
        · exact Or.inr (updateFold_isSome (Or.inl (heq ▸ hkey)))
        · exact Or.inl htl
      · exact Or.inr (updateFold_isSome (Or.inr h))

/-- Every pair of the bulk live result belongs to a requested region. -/
theorem corePricesBulk_region_mem {env : Env} {regions skus : List String}
    {currency : String} :
    ∀ pr ∈ corePricesBulk env regions skus currency, pr.1.1 ∈ regions := by
  unfold corePricesBulk
  suffices h : ∀ (rs : List String) (acc : List ((String × String) × ℚ)),
      (∀ r ∈ rs, r ∈ regions) → (∀ pr ∈ acc, pr.1.1 ∈ regions) →
      ∀ pr ∈ rs.foldl (fun acc region =>
          (coreFetchRegion env skus currency region).foldl
            (fun acc2 pr => insertA acc2 pr.1 pr.2) acc) acc, pr.1.1 ∈ regions by
    exact h regions [] (fun r hr => hr) (by simp)
  intro rs
  induction rs with
  | nil => exact fun acc _ hacc => hacc
  | cons r0 tl ih =>
      intro acc hsub hacc
      rw [List.foldl_cons]
      refine ih _ (fun r hr => hsub r (List.mem_cons_of_mem _ hr)) ?_
      apply updateFold_prop
      · intro pr hpr
        rw [coreFetchRegion_region pr hpr]
        exact hsub r0 (List.mem_cons_self _ _)
      · exact hacc

/-- C4: with the bulk cache available and returning data over a nonempty
region×SKU space — if coverage (pair count / expected) is at least the 0.70
threshold the outcome is `db` with that coverage; below the threshold the
outcome is `hybrid`, the reported coverage is recomputed as the merged
map's filled-pair count over the expected count, regions not missing any
requested SKU keep their cache-derived entries as-is, and — provided the
live fetch of each missing region yields a catalog pricing every requested
SKU — every region ends up with every requested SKU priced. -/
theorem c4_hybrid_fill (env : Env) (region_names all_skus : List String)
    (currency : String) (tenant : Option String)
    (hav : dbIsAvailable env = true)
    (hne : dbGetPricesBulk env region_names all_skus currency ≠ [])
    (hexp : expectedPairs region_names all_skus ≠ 0) :
    (((dbGetPricesBulk env region_names all_skus currency).length : ℚ)
          / (expectedPairs region_names all_skus : ℚ) ≥ dbCoverageThreshold →
      tryDbProvider env region_names all_skus currency tenant
        = (mergePairs [] (dbGetPricesBulk env region_names all_skus currency), "db",
            ((dbGetPricesBulk env region_names all_skus currency).length : ℚ)
              / (expectedPairs region_names all_skus : ℚ))) ∧
    (((dbGetPricesBulk env region_names all_skus currency).length : ℚ)
          / (expectedPairs region_names all_skus : ℚ) < dbCoverageThreshold →
      (tryDbProvider env region_names all_skus currency tenant).2.1 = "hybrid" ∧
      (tryDbProvider env region_names all_skus currency tenant).2.2
        = (filledCount (tryDbProvider env region_names all_skus currency tenant).1 : ℚ)
            / (expectedPairs region_names all_skus : ℚ) ∧
      (∀ rn ∈ region_names,
          rn ∉ missingRegions region_names all_skus
              (mergePairs [] (dbGetPricesBulk env region_names all_skus currency)) →
          lookupA (tryDbProvider env region_names all_skus currency tenant).1 rn
            = lookupA (mergePairs []
                (dbGetPricesBulk env region_names all_skus currency)) rn) ∧
      ((∀ rn ∈ missingRegions region_names all_skus
            (mergePairs [] (dbGetPricesBulk env region_names all_skus currency)),
          ∃ ps, env.retail rn currency = some ps ∧
            ∀ sku ∈ all_skus, ∃ p : ℚ, (sku, some p) ∈ ps) →
        ∀ rn ∈ region_names, ∀ sku ∈ all_skus,
          ∃ p : ℚ,
            lookupInner (tryDbProvider env region_names all_skus currency tenant).1 rn sku
              = some (some p))) := by
  have hc1 : ¬ ¬ dbIsAvailable env = true := by simp [hav]
  constructor
  · intro hge
    simp only [tryDbProvider]
    rw [if_neg hc1, if_neg hne]
    rw [if_pos hexp, if_pos hge]
  · intro hlt
    have hout : tryDbProvider env region_names all_skus currency tenant
        = ((if missingRegions region_names all_skus
                (mergePairs [] (dbGetPricesBulk env region_names all_skus currency)) ≠ []
            then mergePairs
                (mergePairs [] (dbGetPricesBulk env region_names all_skus currency))
                (corePricesBulk env
                  (missingRegions region_names all_skus
                    (mergePairs [] (dbGetPricesBulk env region_names all_skus currency)))
                  all_skus currency)
            else mergePairs [] (dbGetPricesBulk env region_names all_skus currency)),
           "hybrid",
           (filledCount (if missingRegions region_names all_skus
                (mergePairs [] (dbGetPricesBulk env region_names all_skus currency)) ≠ []
            then mergePairs
                (mergePairs [] (dbGetPricesBulk env region_names all_skus currency))
                (corePricesBulk env
                  (missingRegions region_names all_skus
                    (mergePairs [] (dbGetPricesBulk env region_names all_skus currency)))
                  all_skus currency)
            else mergePairs [] (dbGetPricesBulk env region_names all_skus currency)) : ℚ)
             / (expectedPairs region_names all_skus : ℚ)) := by
      simp only [tryDbProvider]
      rw [if_neg hc1, if_neg hne]
      rw [if_pos hexp, if_neg (not_le.mpr hlt), if_pos hexp]
    rw [hout]
    refine ⟨rfl, rfl, ?_, ?_⟩
    · -- regions already fully covered keep their cache entries
      intro rn _hrn hnotmiss
      by_cases hm : missingRegions region_names all_skus
          (mergePairs [] (dbGetPricesBulk env region_names all_skus currency)) ≠ []
      · rw [if_pos hm]
        apply mergePairs_lookupA_of_not_mem
        intro pr hpr
        have hpm := corePricesBulk_region_mem pr hpr
        exact fun heq => hnotmiss (heq ▸ hpm)
      · rw [if_neg hm]
    · -- afterwards every region is fully priced
      intro hcat rn hrn sku hsku
      by_cases hm : rn ∈ missingRegions region_names all_skus
          (mergePairs [] (dbGetPricesBulk env region_names all_skus currency))
      · obtain ⟨ps, hret, hall⟩ := hcat rn hm
        obtain ⟨p, hp⟩ := hall sku hsku
        have hfil : all_skus = [] ∨
            (all_skus.map String.toLower).contains sku.toLower = true :=
          Or.inr (List.elem_iff.mpr (List.mem_map_of_mem _ hsku))
        have hkey1 := coreFetchRegion_keys hret hp hfil
        have hkey2 := corePricesBulk_keys hm hkey1
        have hmne : missingRegions region_names all_skus
            (mergePairs [] (dbGetPricesBulk env region_names all_skus currency)) ≠ [] :=
          List.ne_nil_of_mem hm
        rw [if_pos hmne]
        exact mergePairs_lookupInner_of_key hkey2
      · -- not missing: every requested SKU is cached with a price
        have hsome : (lookupInner
            (mergePairs [] (dbGetPricesBulk env region_names all_skus currency))
            rn sku).isSome := by
          by_contra hno
          apply hm
          unfold missingRegions
          refine List.mem_filter.mpr ⟨hrn, ?_⟩
          refine List.any_eq_true.mpr ⟨sku, hsku, ?_⟩
          rw [Option.isNone_iff_eq_none, ← Option.not_isSome_iff_eq_none]
          exact hno
        obtain ⟨v, hv⟩ := Option.isSome_iff_exists.mp hsome
        have hvsome : v.isSome :=
          @mergePairs_values_some _ []
            (by intro r s v0 h0; simp [lookupInner, lookupA] at h0) rn sku v hv
        obtain ⟨p, hp⟩ := Option.isSome_iff_exists.mp hvsome
        by_cases hmne : missingRegions region_names all_skus
            (mergePairs [] (dbGetPricesBulk env region_names all_skus currency)) ≠ []
        · rw [if_pos hmne]
          exact mergePairs_lookupInner_some (p := p) (by rw [hv, hp])
        · rw [if_neg hmne]
          exact ⟨p, by rw [hv, hp]⟩

/-- Witness for C4 on the `envC4` fixture: the bulk cache covers only
region `"r1"` (coverage 1/2 < 0.70), the provider reports `"hybrid"`, and
after the live fill the missing region×SKU pair (`"r2"`, `"s2"`) is
priced. -/
theorem c4_hybrid_fill_witness :
    (tryDbProvider envC4 ["r1", "r2"] ["s1", "s2"] "USD" none).2.1 = "hybrid" ∧
    (lookupInner (tryDbProvider envC4 ["r1", "r2"] ["s1", "s2"] "USD" none).1
        "r2" "s2").isSome = true := by
  have h := c4_hybrid_fill envC4 ["r1", "r2"] ["s1", "s2"] "USD" none
    (by decide) (by decide) (by decide)
  have hdb : dbGetPricesBulk envC4 ["r1", "r2"] ["s1", "s2"] "USD"
      = [(("r1", "s1"), 1), (("r1", "s2"), 2)] := by decide
  have hlt : ((dbGetPricesBulk envC4 ["r1", "r2"] ["s1", "s2"] "USD").length : ℚ)
      / (expectedPairs ["r1", "r2"] ["s1", "s2"] : ℚ) < dbCoverageThreshold := by
    rw [hdb]
    norm_num [expectedPairs, dbCoverageThreshold, List.cons_ne_nil]
  have h2 := h.2 hlt
  refine ⟨h2.1, ?_⟩
  have hfull := h2.2.2.2 ?_ "r2" (by decide) "s2" (by decide)
  · obtain ⟨p, hp⟩ := hfull
    rw [hp]
    rfl
  · intro rn hm
    have hmr : missingRegions ["r1", "r2"] ["s1", "s2"]
        (mergePairs [] (dbGetPricesBulk envC4 ["r1", "r2"] ["s1", "s2"] "USD"))
        = ["r2"] := by decide
    rw [hmr] at hm
    have hrn : rn = "r2" := by simpa using hm
    subst hrn
    refine ⟨[("s1", some 3), ("s2", some 4)], rfl, ?_⟩
    intro sku hsku
    have hs : sku = "s1" ∨ sku = "s2" := by simpa using hsku
    rcases hs with rfl | rfl
    · exact ⟨3, by simp⟩
    · exact ⟨4, by simp⟩

end RegionsCheapest
